import Mathlib

/-!
Shallow embedding of the fodmap-menu-converter response pipeline.

Source files embedded here:
* `src/unnamed/part_000` — the Deno edge function: request guard, OpenAI call
  boundary, regex JSON extraction and the four error/success responses.
* `src/src/App.tsx` (`handleImageUpload`) — the front-end result normalizer
  (`validatedResults`) and its error propagation.

JSON values are modelled by an inductive `Json`; JavaScript `undefined` is
merged into `Json.null` (no embedded code path distinguishes them).  Number
literals are kept as their source lexeme, since no embedded code path inspects
a numeric value beyond JavaScript truthiness.
-/

/-- JSON value tree as produced by `JSON.parse`. -/
inductive Json where
  | null
  | bool (b : Bool)
  | num (lexeme : String)
  | str (s : String)
  | arr (elems : List Json)
  | obj (fields : List (String × Json))

/-- A JSON number literal denotes zero exactly when all of its digits are 0. -/
def numLexIsZero (lexeme : String) : Bool :=
  lexeme.data.all (fun c => !c.isDigit || c == '0')

/-- JavaScript truthiness test (`!v`) on a JSON value. -/
def jsFalsy : Json → Bool
  | Json.null => true
  | Json.bool b => !b
  | Json.num lexeme => numLexIsZero lexeme
  | Json.str s => s == ""
  | Json.arr _ => false
  | Json.obj _ => false

/-- JavaScript truthiness of `response.choices[0]?.message?.content`
(absent or empty string are falsy). -/
def optFalsy : Option String → Bool
  | none => true
  | some s => s == ""

def contentStr : Option String → String
  | none => ""
  | some s => s

/-- Last binding wins, matching how `JSON.parse` collapses duplicate keys
before property access. -/
def lookupLast (fields : List (String × Json)) (k : String) : Option Json :=
  match fields with
  | [] => none
  | (k', v) :: rest =>
    match lookupLast rest k with
    | some r => some r
    | none => if k' = k then some v else none

/-- JavaScript property access `v.k` on non-null values: objects look the key
up, every other value yields `undefined` (modelled as `Json.null`). -/
def getF : Json → String → Json
  | Json.obj fields, k => (lookupLast fields k).getD Json.null
  | _, _ => Json.null

def isNull : Json → Bool
  | Json.null => true
  | _ => false

def asArray : Json → List Json
  | Json.arr xs => xs
  | _ => []

/-! Model of `JSON.parse` (strict JSON grammar, recursive descent with fuel).
Escaped `\uXXXX` code points are built with `Char.ofNat`; surrogate halves,
which JavaScript strings would keep as lone surrogates, fall to `Char.ofNat`'s
default since `Char` excludes them — no embedded code path depends on them. -/

def isJsonWs (c : Char) : Bool :=
  c = ' ' || c = '\t' || c = '\n' || c = '\r'

def skipWs : List Char → List Char
  | [] => []
  | c :: cs => if isJsonWs c then skipWs cs else c :: cs

def hexVal (c : Char) : Option Nat :=
  if '0' ≤ c ∧ c ≤ '9' then some (c.toNat - '0'.toNat)
  else if 'a' ≤ c ∧ c ≤ 'f' then some (c.toNat - 'a'.toNat + 10)
  else if 'A' ≤ c ∧ c ≤ 'F' then some (c.toNat - 'A'.toNat + 10)
  else none

def escChar (c : Char) : Option Char :=
  if c = '"' then some '"'
  else if c = '\\' then some '\\'
  else if c = '/' then some '/'
  else if c = 'b' then some '\x08'
  else if c = 'f' then some '\x0c'
  else if c = 'n' then some '\n'
  else if c = 'r' then some '\r'
  else if c = 't' then some '\t'
  else none

/-- Body of a JSON string literal, after the opening quote. -/
def parseStringBody : Nat → List Char → List Char → Option (String × List Char)
  | 0, _, _ => none
  | Nat.succ _, _, [] => none
  | Nat.succ f, acc, c :: cs =>
    if c = '"' then some (String.mk acc.reverse, cs)
    else if c = '\\' then
      match cs with
      | [] => none
      | e :: cs2 =>
        if e = 'u' then
          match cs2 with
          | h1 :: h2 :: h3 :: h4 :: cs3 =>
            match hexVal h1, hexVal h2, hexVal h3, hexVal h4 with
            | some a, some b, some c2, some d =>
              parseStringBody f (Char.ofNat (((a * 16 + b) * 16 + c2) * 16 + d) :: acc) cs3
            | _, _, _, _ => none
          | _ => none
        else
          match escChar e with
          | some r => parseStringBody f (r :: acc) cs2
          | none => none
    else if c.toNat < 32 then none
    else parseStringBody f (c :: acc) cs

def takeDigits : List Char → List Char × List Char
  | [] => ([], [])
  | c :: cs =>
    if c.isDigit then
      let p := takeDigits cs
      (c :: p.1, p.2)
    else ([], c :: cs)

/-- Integer digits of a JSON number: `0`, or a nonzero digit followed by
digits (leading zeros are rejected, as in `JSON.parse`). -/
def parseIntDigits (cs : List Char) : Option (List Char × List Char) :=
  match cs with
  | '0' :: r =>
    match r with
    | c :: _ => if c.isDigit then none else some (['0'], r)
    | [] => some (['0'], [])
  | c :: r =>
    if c.isDigit then
      let p := takeDigits r
      some (c :: p.1, p.2)
    else none
  | [] => none

def parseExpTail (cs : List Char) : Option (List Char × List Char) :=
  let sgn : List Char × List Char :=
    match cs with
    | '+' :: r => (['+'], r)
    | '-' :: r => (['-'], r)
    | _ => ([], cs)
  match takeDigits sgn.2 with
  | ([], _) => none
  | (ds, r) => some (sgn.1 ++ ds, r)

/-- A JSON number, returned as its source lexeme. -/
def parseNumberLex (cs : List Char) : Option (List Char × List Char) :=
  let sign : List Char × List Char :=
    match cs with
    | '-' :: r => (['-'], r)
    | _ => ([], cs)
  match parseIntDigits sign.2 with
  | none => none
  | some (ds, r1) =>
    let fr : Option (List Char × List Char) :=
      match r1 with
      | '.' :: r2 =>
        match takeDigits r2 with
        | ([], _) => none
        | (fds, r3) => some ('.' :: fds, r3)
      | _ => some ([], r1)
    match fr with
    | none => none
    | some (fds, r3) =>
      let ex : Option (List Char × List Char) :=
        match r3 with
        | 'e' :: r4 => (parseExpTail r4).map (fun p => ('e' :: p.1, p.2))
        | 'E' :: r4 => (parseExpTail r4).map (fun p => ('E' :: p.1, p.2))
        | _ => some ([], r3)
      match ex with
      | none => none
      | some (eds, r5) => some (sign.1 ++ ds ++ fds ++ eds, r5)

/-- Parsing tasks: a value, the items of an array after `[`, or the members of
an object after the opening curly brace (both with the elements read so far,
reversed). -/
inductive PTask where
  | pv (cs : List Char)
  | pa (cs : List Char) (acc : List Json)
  | po (cs : List Char) (acc : List (String × Json))

def parseStep : Nat → PTask → Option (Json × List Char)
  | 0, _ => none
  | Nat.succ f, PTask.pv cs =>
    match skipWs cs with
    | '"' :: rest =>
      (parseStringBody (rest.length + 1) [] rest).map (fun p => (Json.str p.1, p.2))
    | '[' :: rest =>
      (match skipWs rest with
       | ']' :: r2 => some (Json.arr [], r2)
       | r2 => parseStep f (PTask.pa r2 []))
    | '{' :: rest =>
      (match skipWs rest with
       | '}' :: r2 => some (Json.obj [], r2)
       | r2 => parseStep f (PTask.po r2 []))
    | 't' :: 'r' :: 'u' :: 'e' :: rest => some (Json.bool true, rest)
    | 'f' :: 'a' :: 'l' :: 's' :: 'e' :: rest => some (Json.bool false, rest)
    | 'n' :: 'u' :: 'l' :: 'l' :: rest => some (Json.null, rest)
    | cs2 => (parseNumberLex cs2).map (fun p => (Json.num (String.mk p.1), p.2))
  | Nat.succ f, PTask.pa cs acc =>
    match parseStep f (PTask.pv cs) with
    | none => none
    | some (v, rest) =>
      match skipWs rest with
      | ',' :: r2 => parseStep f (PTask.pa r2 (v :: acc))
      | ']' :: r2 => some (Json.arr (v :: acc).reverse, r2)
      | _ => none
  | Nat.succ f, PTask.po cs acc =>
    match skipWs cs with
    | '"' :: rest =>
      (match parseStringBody (rest.length + 1) [] rest with
       | none => none
       | some (k, r1) =>
         match skipWs r1 with
         | ':' :: r2 =>
           (match parseStep f (PTask.pv r2) with
            | none => none
            | some (v, r3) =>
              match skipWs r3 with
              | ',' :: r4 => parseStep f (PTask.po r4 ((k, v) :: acc))
              | '}' :: r4 => some (Json.obj ((k, v) :: acc).reverse, r4)
              | _ => none)
         | _ => none)
    | _ => none

/-- Model of `JSON.parse`: the whole string must be one JSON value surrounded
only by whitespace; `none` models a thrown `SyntaxError`. -/
def jsonParse (s : String) : Option Json :=
  match parseStep (2 * s.data.length + 8) (PTask.pv s.data) with
  | some (v, rest) => if (skipWs rest).isEmpty then some v else none
  | none => none

example : jsonParse "[1, 2]" = some (Json.arr [Json.num "1", Json.num "2"]) := rfl
example : jsonParse "[[1]]" = some (Json.arr [Json.arr [Json.num "1"]]) := rfl
example : jsonParse "[[1]" = none := rfl
example : jsonParse "\x7b\"name\":\"X\",\"fodmapLevel\":\"low\"\x7d" =
    some (Json.obj [("name", Json.str "X"), ("fodmapLevel", Json.str "low")]) := rfl
example : jsonParse "[\x7b\"a\": true\x7d, null, -1.5e3]" =
    some (Json.arr [Json.obj [("a", Json.bool true)], Json.null, Json.num "-1.5e3"]) := rfl
example : jsonParse "[\"a]b\"]" = some (Json.arr [Json.str "a]b"]) := rfl
example : jsonParse "[01]" = none := rfl
example : jsonParse "[\"a" = none := rfl

/-! Model of the extraction regex in `src/unnamed/part_000` line 62,
`aiResponse.match(/\s*(\[.*?\]|\{.*?\})\s*/s)` with capture group 1:
the first position holding `[` (resp. `{`) that has a later `]` (resp. `}`)
starts the capture, which runs to the first such closing character — the
lazy `.*?` with the `s` flag stops at the earliest closer of the same kind,
regardless of nesting or string literals. -/

/-- Everything up to and including the first occurrence of `close`. -/
def takeThrough (close : Char) : List Char → Option (List Char)
  | [] => none
  | c :: cs =>
    if c = close then some [c]
    else (takeThrough close cs).map (fun seg => c :: seg)

/-- Capture group 1 of the extraction regex, or `none` when the regex has no
match anywhere in the text. -/
def jsonCapture : List Char → Option (List Char)
  | [] => none
  | c :: cs =>
    if c = '[' then
      match takeThrough ']' cs with
      | some seg => some (c :: seg)
      | none => jsonCapture cs
    else if c = '{' then
      match takeThrough '}' cs with
      | some seg => some (c :: seg)
      | none => jsonCapture cs
    else jsonCapture cs

/-- Outcome of lines 62–82 of the edge function: regex extraction followed by
`JSON.parse`, with the two error responses distinguished.  Both error
constructors carry `aiResponse`, the raw completion text put in `details`. -/
inductive ExtractResult where
  | noJson (details : String)
  | malformed (details : String)
  | ok (v : Json)

def extractJson (aiResponse : String) : ExtractResult :=
  match jsonCapture aiResponse.data with
  | none => ExtractResult.noJson aiResponse
  | some cap =>
    match jsonParse (String.mk cap) with
    | none => ExtractResult.malformed aiResponse
    | some v => ExtractResult.ok v

example : extractJson "[[1]]" = ExtractResult.malformed "[[1]]" := rfl
example : extractJson "text [1] more" = ExtractResult.ok (Json.arr [Json.num "1"]) := rfl
example : extractJson "no brackets here" = ExtractResult.noJson "no brackets here" := rfl

/-- HTTP response of the edge function, reduced to status and JSON body
(the CORS/content-type headers are constant across all branches). -/
structure HttpResponse where
  status : Nat
  body : Json

/-- The `serve` handler of `src/unnamed/part_000` for a POST request, given
the parsed `imageUrl` field of the request body (`Json.null` when absent) and
the outcome of the OpenAI call: `Except.error msg` models a thrown error
caught by the outer catch (transport/provider failure, message `msg`), and
`Except.ok content` a 2xx completion whose message content is `content`. -/
def serveHandler (imageUrl : Json) (chat : Except String (Option String)) : HttpResponse :=
  if jsFalsy imageUrl then
    ⟨400, Json.obj [("error", Json.str "imageUrl is required")]⟩
  else
    match chat with
    | Except.error e => ⟨500, Json.obj [("error", Json.str e)]⟩
    | Except.ok content =>
      if optFalsy content then
        ⟨500, Json.obj [("error", Json.str "Failed to get response from AI")]⟩
      else
        let aiResponse := contentStr content
        match extractJson aiResponse with
        | ExtractResult.noJson d =>
          ⟨500, Json.obj [("error", Json.str "No JSON found in AI response"),
                          ("details", Json.str d)]⟩
        | ExtractResult.malformed d =>
          ⟨500, Json.obj [("error", Json.str "Failed to parse AI response JSON"),
                          ("details", Json.str d)]⟩
        | ExtractResult.ok v => ⟨200, v⟩

/-! Model of `handleImageUpload` in `src/src/App.tsx` lines 60–104: the
`validatedResults` normalization (lines 84–92) and the surrounding error
propagation.  A thrown `TypeError` is modelled as `Except.error` with the
message JavaScript would produce. -/

/-- One normalized menu item.  `name` and `description` stay `Json` because
the source keeps any truthy value unchanged (`item.name || "Unknown Item"`),
including non-strings; `concerns`/`alternatives` keep arbitrary array
elements (`Array.isArray` is the only check). -/
structure FodmapItemJ where
  name : Json
  description : Json
  fodmapLevel : String
  concerns : List Json
  alternatives : List Json

/-- `['low', 'moderate', 'high'].includes s`. -/
def validLevel (s : String) : Bool :=
  s == "low" || s == "moderate" || s == "high"

/-- ASCII lowercasing; coincides with JavaScript `toLowerCase` on the ASCII
range, and only ASCII letters occur in the embedded comparisons. -/
def charLower (c : Char) : Char :=
  if 'A' ≤ c ∧ c ≤ 'Z' then Char.ofNat (c.toNat + 32) else c

def strLower (s : String) : String := String.mk (s.data.map charLower)

/-- The `fodmapLevel` coercion of App.tsx lines 87–89.  A truthy non-string
level throws: `item.fodmapLevel.toLowerCase` is not a function. -/
def coerceLevel (levelF : Json) : Except String String :=
  if jsFalsy levelF then Except.ok "unknown"
  else
    match levelF with
    | Json.str s => Except.ok (if validLevel (strLower s) then strLower s else "unknown")
    | _ => Except.error "item.fodmapLevel.toLowerCase is not a function"

/-- The per-element mapping of `validatedResults`.  Property access on `null`
(or `undefined`) throws; on any other non-object value it yields `undefined`,
so such elements normalize to an all-default placeholder item.  The JS object
literal evaluates `name` and `description` before the level coercion can
throw, which is unobservable since a throw discards the partial literal. -/
def validateItem (item : Json) : Except String FodmapItemJ :=
  if isNull item then Except.error "Cannot read properties of null"
  else
    match coerceLevel (getF item "fodmapLevel") with
    | Except.error e => Except.error e
    | Except.ok lvl =>
      Except.ok
        ⟨(if jsFalsy (getF item "name") then Json.str "Unknown Item" else getF item "name"),
         (if jsFalsy (getF item "description") then Json.str "" else getF item "description"),
         lvl,
         asArray (getF item "concerns"),
         asArray (getF item "alternatives")⟩

/-- `Array.prototype.map` with a callback that can throw: elements are
processed left to right, the first throw aborts the whole map. -/
def mapValidate : List Json → Except String (List FodmapItemJ)
  | [] => Except.ok []
  | x :: xs =>
    match validateItem x with
    | Except.error e => Except.error e
    | Except.ok d =>
      match mapValidate xs with
      | Except.error e => Except.error e
      | Except.ok ds => Except.ok (d :: ds)

/-- App.tsx lines 84–92: `(analysisResults as FodmapItem[] || []).map(...)`.
A falsy result is replaced by `[]`; a truthy non-array has no `.map` method
and throws. -/
def validatedResults (analysisResults : Json) : Except String (List FodmapItemJ) :=
  let base := if jsFalsy analysisResults then Json.arr [] else analysisResults
  match base with
  | Json.arr items => mapValidate items
  | _ => Except.error "analysisResults.map is not a function"

/-- App.tsx lines 65–80: the detailed error message built from a non-2xx
function response.  The supabase transport is abstracted as delivering the
edge function's JSON error body for `JSON.parse(functionError.message)`. -/
def detailedError (body : Json) : String :=
  match body with
  | Json.obj fs =>
    (match lookupLast fs "error" with
     | some (Json.str e) =>
       (match lookupLast fs "details" with
        | some (Json.str d) => if d == "" then e else e ++ ": " ++ d
        | _ => e)
     | _ => "Failed to analyze menu.")
  | _ => "Failed to analyze menu."

/-- Overall outcome of one `handleImageUpload` run past the upload step:
either the normalized dish list reaches `setMenuItems`, or the catch block
records an error message and resets the UI. -/
inductive PipelineResult where
  | dishes (items : List FodmapItemJ)
  | failure (message : String)

/-- End-to-end pipeline: edge function then front-end normalization.  A
non-200 function response surfaces as a thrown error (App.tsx line 80), and a
`validatedResults` throw is caught by the same catch block (line 98). -/
def analyzePipeline (imageUrl : Json) (chat : Except String (Option String)) :
    PipelineResult :=
  let resp := serveHandler imageUrl chat
  if resp.status = 200 then
    match validatedResults resp.body with
    | Except.ok ds => PipelineResult.dishes ds
    | Except.error e => PipelineResult.failure e
  else PipelineResult.failure (detailedError resp.body)

/-- The all-default item a clearly-non-object, non-null array element
normalizes to. -/
def placeholderItem : FodmapItemJ :=
  ⟨Json.str "Unknown Item", Json.str "", "unknown", [], []⟩

example : validatedResults (Json.arr [Json.str "hello"]) = Except.ok [placeholderItem] := rfl
example : validatedResults (Json.obj [("name", Json.str "X")]) =
    Except.error "analysisResults.map is not a function" := rfl
example : validatedResults (Json.arr [Json.obj [("fodmapLevel", Json.num "1")]]) =
    Except.error "item.fodmapLevel.toLowerCase is not a function" := rfl

/-! Predicates used to state the corrected claims. -/

/-- An array element is an object whose `fodmapLevel` field (absent fields
read as `undefined`) is a string or falsy — exactly the elements on which the
level coercion cannot throw. -/
def levelFieldSafe (item : Json) : Bool :=
  match item with
  | Json.obj fields =>
    (match getF (Json.obj fields) "fodmapLevel" with
     | Json.str _ => true
     | v => jsFalsy v)
  | _ => false

/-- A normalized item whose level is one of the four canonical symbols. -/
def levelOk (d : FodmapItemJ) : Bool :=
  d.fodmapLevel == "low" || d.fodmapLevel == "moderate" ||
    d.fodmapLevel == "high" || d.fodmapLevel == "unknown"

/-- The normalizer finished without throwing and every produced item carries a
canonical level. -/
def resultsLevelsOk : Except String (List FodmapItemJ) → Bool
  | Except.ok out => out.all levelOk
  | Except.error _ => false

/-- A clearly-non-object array element that property access does not throw
on: a string, number, boolean or nested array (`null` elements throw). -/
def nonObjPrim : Json → Bool
  | Json.str _ => true
  | Json.num _ => true
  | Json.bool _ => true
  | Json.arr _ => true
  | _ => false

/-! Lemmas about the regex-capture model. -/

theorem takeThrough_eq_none {close : Char} :
    ∀ {cs : List Char}, close ∉ cs → takeThrough close cs = none
  | [], _ => rfl
  | c :: cs, h => by
    have hc : ¬ c = close := fun hc => h (hc ▸ List.mem_cons_self c cs)
    have ht := takeThrough_eq_none (fun hm => h (List.mem_cons_of_mem c hm))
    simp [takeThrough, hc, ht]

theorem takeThrough_append {close : Char} :
    ∀ {l : List Char}, close ∉ l →
      ∀ r, takeThrough close (l ++ close :: r) = some (l ++ [close])
  | [], _, r => by simp [takeThrough]
  | c :: l, h, r => by
    have hc : ¬ c = close := fun hc => h (hc ▸ List.mem_cons_self c l)
    have ht := takeThrough_append (fun hm => h (List.mem_cons_of_mem c hm)) r
    simp [takeThrough, hc, ht]

theorem jsonCapture_append_of_no_open :
    ∀ {l : List Char}, (∀ c ∈ l, c ≠ '[' ∧ c ≠ '{') →
      ∀ r, jsonCapture (l ++ r) = jsonCapture r
  | [], _, r => rfl
  | c :: l, h, r => by
    have hc := h c (List.mem_cons_self c l)
    have ih := jsonCapture_append_of_no_open (fun x hx => h x (List.mem_cons_of_mem c hx)) r
    simp [jsonCapture, hc.1, hc.2, ih]

theorem jsonCapture_eq_none_of_no_close :
    ∀ {cs : List Char}, (∀ c ∈ cs, c ≠ ']' ∧ c ≠ '}') → jsonCapture cs = none
  | [], _ => rfl
  | c :: cs, h => by
    have hcs : ∀ x ∈ cs, x ≠ ']' ∧ x ≠ '}' :=
      fun x hx => h x (List.mem_cons_of_mem c hx)
    have ih := jsonCapture_eq_none_of_no_close hcs
    have hsq : (']' : Char) ∉ cs := fun hm => ((hcs ']' hm).1 rfl)
    have hcu : ('}' : Char) ∉ cs := fun hm => ((hcs '}' hm).2 rfl)
    by_cases hb : c = '['
    · simp [jsonCapture, hb, takeThrough_eq_none hsq, ih]
    · by_cases hb2 : c = '{'
      · simp [jsonCapture, hb, hb2, takeThrough_eq_none hcu, ih]
      · simp [jsonCapture, hb, hb2, ih]

theorem jsonCapture_eq_none_of_no_open {cs : List Char}
    (h : ∀ c ∈ cs, c ≠ '[' ∧ c ≠ '{') : jsonCapture cs = none := by
  have := jsonCapture_append_of_no_open h []
  simpa using this

/-- C5: for every completion text containing no `[` and no `{` character, the
extractor fails with the NoJsonFound error kind (the regex cannot match, so
the handler takes the "No JSON found in AI response" branch), which is
neither the MalformedJson kind nor success. -/
theorem c5_no_brackets_no_json (s : String)
    (h : ∀ c ∈ s.data, c ≠ '[' ∧ c ≠ '{') :
    extractJson s = ExtractResult.noJson s := by
  simp [extractJson, jsonCapture_eq_none_of_no_open h]

theorem c5_witness : extractJson "I cannot analyze this image." =
    ExtractResult.noJson "I cannot analyze this image." :=
  c5_no_brackets_no_json "I cannot analyze this image." (by decide)

/-- C9 counterexample: the handler does not accept an empty-string image URL —
`!imageUrl` is true for `""`, so the request is rejected early with the
400 "imageUrl is required" response, before the Request Builder runs. -/
theorem c9_empty_url_counterexample :
    serveHandler (Json.str "") (Except.ok (some "[]")) =
      ⟨400, Json.obj [("error", Json.str "imageUrl is required")]⟩ := rfl

/-- C9 amended: an empty-string `imageUrl` is rejected early with the
"imageUrl is required" request error (HTTP 400), whatever the inference
service would have returned, because the emptiness guard treats `""` as
missing. -/
theorem c9_empty_url_rejected (chat : Except String (Option String)) :
    serveHandler (Json.str "") chat =
      ⟨400, Json.obj [("error", Json.str "imageUrl is required")]⟩ := rfl

/-- C4 counterexample: on the truncated completion `[{"name":"Soup"` the
handler answers with the NoJsonFound error body, not the MalformedJson one —
the lazy regex needs a closing bracket, and the text has none, so no
candidate substring is found and `JSON.parse` is never reached.  The raw
completion text is still attached as `details`. -/
theorem c4_truncated_counterexample :
    serveHandler (Json.str "u") (Except.ok (some "[\x7b\"name\":\"Soup\"")) =
      ⟨500, Json.obj [("error", Json.str "No JSON found in AI response"),
                      ("details", Json.str "[\x7b\"name\":\"Soup\"")]⟩ ∧
    "No JSON found in AI response" ≠ "Failed to parse AI response JSON" :=
  ⟨rfl, by decide⟩

/-- C4 amended: a truncated completion that contains no `]` and no `}` at all
(such as `[{"name":"Soup"`) makes the pipeline fail with the NoJsonFound
error kind, with the raw completion text attached as `details`; MalformedJson
is not reachable without a closing bracket of the matching kind. -/
theorem c4_truncated_no_json (imageUrl : Json) (s : String)
    (hurl : jsFalsy imageUrl = false) (hne : (s == "") = false)
    (hnc : ∀ c ∈ s.data, c ≠ ']' ∧ c ≠ '}') :
    serveHandler imageUrl (Except.ok (some s)) =
      ⟨500, Json.obj [("error", Json.str "No JSON found in AI response"),
                      ("details", Json.str s)]⟩ := by
  have hcap : jsonCapture s.data = none := jsonCapture_eq_none_of_no_close hnc
  simp [serveHandler, hurl, optFalsy, hne, contentStr, extractJson, hcap]

theorem c4_witness :
    serveHandler (Json.str "u") (Except.ok (some "[truncated")) =
      ⟨500, Json.obj [("error", Json.str "No JSON found in AI response"),
                      ("details", Json.str "[truncated")]⟩ :=
  c4_truncated_no_json (Json.str "u") "[truncated" (by decide) (by decide) (by decide)

/-- C7 counterexample: an EmptyCompletion outcome is not distinguishable from
every TransportFailure.  A caught transport error whose message happens to be
"Failed to get response from AI" produces byte-for-byte the same 500 response
as an empty completion, since the catch branch returns `{error:
error.message}` with no tag. -/
theorem c7_empty_completion_counterexample :
    serveHandler (Json.str "u") (Except.error "Failed to get response from AI") =
      serveHandler (Json.str "u") (Except.ok none) ∧
    serveHandler (Json.str "u") (Except.ok none) =
      ⟨500, Json.obj [("error", Json.str "Failed to get response from AI")]⟩ :=
  ⟨rfl, rfl⟩

/-- C7 amended: a 2xx inference response with empty or absent message content
makes the handler fail with the fixed EmptyCompletion body, which differs
from the NoJsonFound and MalformedJson bodies (distinct fixed error strings)
and from every success response (status 500 vs 200); it differs from a
TransportFailure response only when the propagated error message differs from
"Failed to get response from AI", both branches sharing the same
`{error}`/500 shape. -/
theorem c7_empty_completion_branch (imageUrl : Json) (content : Option String)
    (hurl : jsFalsy imageUrl = false) (hc : optFalsy content = true) :
    serveHandler imageUrl (Except.ok content) =
      ⟨500, Json.obj [("error", Json.str "Failed to get response from AI")]⟩ ∧
    (∀ d : String,
      Json.obj [("error", Json.str "Failed to get response from AI")] ≠
        Json.obj [("error", Json.str "No JSON found in AI response"),
                  ("details", Json.str d)]) ∧
    (∀ d : String,
      Json.obj [("error", Json.str "Failed to get response from AI")] ≠
        Json.obj [("error", Json.str "Failed to parse AI response JSON"),
                  ("details", Json.str d)]) ∧
    (∀ e : String, e ≠ "Failed to get response from AI" →
      Json.obj [("error", Json.str "Failed to get response from AI")] ≠
        Json.obj [("error", Json.str e)]) ∧
    (500 : Nat) ≠ 200 := by
  refine ⟨by simp [serveHandler, hurl, hc], ?_, ?_, ?_, by decide⟩
  · intro d h
    simp at h
  · intro d h
    simp at h
  · intro e he h
    simp at h
    exact he h.symm

theorem c7_witness :
    serveHandler (Json.str "u") (Except.ok (some "")) =
      ⟨500, Json.obj [("error", Json.str "Failed to get response from AI")]⟩ :=
  (c7_empty_completion_branch (Json.str "u") (some "") (by decide) (by decide)).1

/-- C1 counterexample: `[[1]]` is a valid JSON array (with empty prefix and
suffix, which trivially contain no `[` or `{`), yet the extractor does not
return it: the lazy regex captures `[[1]`, which fails to parse, so the
pipeline reports MalformedJson instead of the array. -/
theorem c1_extractor_counterexample :
    jsonParse "[[1]]" = some (Json.arr [Json.arr [Json.num "1"]]) ∧
    extractJson "[[1]]" = ExtractResult.malformed "[[1]]" :=
  ⟨rfl, rfl⟩

/-- C1 amended: the extractor returns the array exactly for completions
`prefix ++ arrayText ++ suffix` where the prefix contains no `[` or `{`, the
array parses as JSON, and the only `]` in the array's text is its final
character (no nested arrays and no `]` inside string literals; the suffix
needs no constraint).  Valid arrays with an interior `]`, such as `[[1]]`,
are instead cut short at that `]` and reported as MalformedJson. -/
theorem c1_extractor_flat_array (pre a suf : String) (mid : List Char) (l : List Json)
    (hpre : ∀ c ∈ pre.data, c ≠ '[' ∧ c ≠ '{')
    (ha : a.data = '[' :: (mid ++ [']']))
    (hmid : (']' : Char) ∉ mid)
    (hparse : jsonParse a = some (Json.arr l)) :
    extractJson (pre ++ a ++ suf) = ExtractResult.ok (Json.arr l) := by
  have hdata : (pre ++ a ++ suf).data = pre.data ++ (a.data ++ suf.data) := by
    simp [String.data_append]
  have hcap : jsonCapture (pre ++ a ++ suf).data = some a.data := by
    rw [hdata, jsonCapture_append_of_no_open hpre, ha]
    have ht : takeThrough ']' ((mid ++ [']']) ++ suf.data) = some (mid ++ [']']) := by
      have := takeThrough_append hmid suf.data
      simpa using this
    simp [jsonCapture, List.append_assoc] at ht ⊢
    simp [ht]
  have hmk : String.mk a.data = a := rfl
  rw [hdata] at hcap
  simp [extractJson, hdata, hcap, hmk, hparse]

theorem c1_witness :
    extractJson ("Result: " ++ "[1, 2]" ++ " done") =
      ExtractResult.ok (Json.arr [Json.num "1", Json.num "2"]) :=
  c1_extractor_flat_array "Result: " "[1, 2]" " done" ['1', ',', ' ', '2']
    [Json.num "1", Json.num "2"] (by decide) (by decide) (by decide) rfl

/-- C10: every item the normalizer produces has a truthy (hence non-empty)
name — a falsy input name (absent, empty string, `null`, `false`, zero) is
replaced by the placeholder "Unknown Item". -/
theorem c10_output_name_truthy (item : Json) (d : FodmapItemJ)
    (h : validateItem item = Except.ok d) :
    jsFalsy d.name = false ∧ d.name ≠ Json.str "" ∧
      (jsFalsy (getF item "name") = true → d.name = Json.str "Unknown Item") := by
  unfold validateItem at h
  by_cases hn : isNull item = true
  · rw [if_pos hn] at h
    exact absurd h (by simp)
  · rw [if_neg hn] at h
    cases hl : coerceLevel (getF item "fodmapLevel") with
    | error e => rw [hl] at h; exact absurd h (by simp)
    | ok lvl =>
      rw [hl] at h
      injection h with h2
      subst h2
      refine ⟨?_, ?_, ?_⟩
      · show jsFalsy (if jsFalsy (getF item "name") = true
            then Json.str "Unknown Item" else getF item "name") = false
        by_cases hf : jsFalsy (getF item "name") = true
        · rw [if_pos hf]; decide
        · have hf' : jsFalsy (getF item "name") = false := by
            cases hb : jsFalsy (getF item "name")
            · rfl
            · exact absurd hb hf
          rw [if_neg hf]; exact hf'
      · show (if jsFalsy (getF item "name") = true
            then Json.str "Unknown Item" else getF item "name") ≠ Json.str ""
        by_cases hf : jsFalsy (getF item "name") = true
        · rw [if_pos hf]
          intro he
          injection he with h3
          exact absurd h3 (by decide)
        · have hf' : jsFalsy (getF item "name") = false := by
            cases hb : jsFalsy (getF item "name")
            · rfl
            · exact absurd hb hf
          rw [if_neg hf]
          intro he
          rw [he] at hf'
          exact absurd hf' (by decide)
      · intro hc
        show (if jsFalsy (getF item "name") = true
            then Json.str "Unknown Item" else getF item "name") = Json.str "Unknown Item"
        exact if_pos hc

theorem c10_witness :
    jsFalsy placeholderItem.name = false ∧
      placeholderItem.name ≠ Json.str "" ∧
      placeholderItem.name = Json.str "Unknown Item" := by
  have h := c10_output_name_truthy (Json.obj [("name", Json.str "")]) placeholderItem rfl
  exact ⟨h.1, h.2.1, h.2.2 (by decide)⟩

/-- C6: the normalizer matches `fodmapLevel` case-insensitively against the
three valid levels — a string level lowercases and is kept exactly when it is
one of low/moderate/high and otherwise becomes "unknown" (so "HIGH" gives
"high" and "extreme" gives "unknown"), and an absent level also becomes
"unknown". -/
theorem c6_level_case_insensitive :
    (∀ (s : String) (fs : List (String × Json)),
        lookupLast fs "fodmapLevel" = some (Json.str s) →
        (validateItem (Json.obj fs)).map FodmapItemJ.fodmapLevel =
          Except.ok (if validLevel (strLower s) then strLower s else "unknown")) ∧
    (∀ fs : List (String × Json),
        lookupLast fs "fodmapLevel" = none →
        (validateItem (Json.obj fs)).map FodmapItemJ.fodmapLevel =
          Except.ok "unknown") := by
  have hnotnull : ∀ fs : List (String × Json), ¬ isNull (Json.obj fs) = true := by
    intro fs h
    simp [isNull] at h
  constructor
  · intro s fs h
    have hget : getF (Json.obj fs) "fodmapLevel" = Json.str s := by
      simp [getF, h]
    have hco : coerceLevel (getF (Json.obj fs) "fodmapLevel") =
        Except.ok (if validLevel (strLower s) then strLower s else "unknown") := by
      rw [hget]
      by_cases hs : s = ""
      · subst hs; rfl
      · have hs' : (s == "") = false := by simp [hs]
        simp [coerceLevel, jsFalsy, hs']
    unfold validateItem
    rw [if_neg (hnotnull fs), hco]
    rfl
  · intro fs h
    have hget : getF (Json.obj fs) "fodmapLevel" = Json.null := by
      simp [getF, h]
    have hco : coerceLevel (getF (Json.obj fs) "fodmapLevel") = Except.ok "unknown" := by
      rw [hget]
      rfl
    unfold validateItem
    rw [if_neg (hnotnull fs), hco]
    rfl

theorem c6_witness :
    (validateItem (Json.obj [("fodmapLevel", Json.str "HIGH")])).map
        FodmapItemJ.fodmapLevel = Except.ok "high" ∧
    (validateItem (Json.obj [("fodmapLevel", Json.str "extreme")])).map
        FodmapItemJ.fodmapLevel = Except.ok "unknown" ∧
    (validateItem (Json.obj [("name", Json.str "Dish")])).map
        FodmapItemJ.fodmapLevel = Except.ok "unknown" := by
  refine ⟨?_, ?_, ?_⟩
  · exact (c6_level_case_insensitive.1 "HIGH" [("fodmapLevel", Json.str "HIGH")] rfl).trans
      (by rfl)
  · exact (c6_level_case_insensitive.1 "extreme"
      [("fodmapLevel", Json.str "extreme")] rfl).trans (by rfl)
  · exact c6_level_case_insensitive.2 [("name", Json.str "Dish")] rfl

/-! Helper lemmas for the normalizer claims. -/

theorem bool_eq_false {b : Bool} (h : ¬ b = true) : b = false := by
  cases b
  · rfl
  · exact absurd rfl h

theorem coerceLevel_of_falsy {v : Json} (h : jsFalsy v = true) :
    coerceLevel v = Except.ok "unknown" := by
  unfold coerceLevel
  rw [if_pos h]

theorem coerceLevel_str (s : String) :
    ∃ lvl, coerceLevel (Json.str s) = Except.ok lvl ∧
      (validLevel lvl || (lvl == "unknown")) = true := by
  by_cases hs : (s == "") = true
  · exact ⟨"unknown", coerceLevel_of_falsy hs, by decide⟩
  · have hs' : (s == "") = false := bool_eq_false hs
    by_cases hv : validLevel (strLower s) = true
    · refine ⟨strLower s, ?_, by simp [hv]⟩
      unfold coerceLevel
      rw [if_neg (by simp [jsFalsy, hs'])]
      simp [hv]
    · have hv' : validLevel (strLower s) = false := bool_eq_false hv
      refine ⟨"unknown", ?_, by decide⟩
      unfold coerceLevel
      rw [if_neg (by simp [jsFalsy, hs'])]
      simp [hv']

theorem coerceLevel_safe : ∀ (v : Json),
    (match v with | Json.str _ => true | w => jsFalsy w) = true →
    ∃ lvl, coerceLevel v = Except.ok lvl ∧
      (validLevel lvl || (lvl == "unknown")) = true
  | Json.null, _ => ⟨"unknown", rfl, by decide⟩
  | Json.bool _, h => ⟨"unknown", coerceLevel_of_falsy h, by decide⟩
  | Json.num _, h => ⟨"unknown", coerceLevel_of_falsy h, by decide⟩
  | Json.arr _, h => absurd h (by simp [jsFalsy])
  | Json.obj _, h => absurd h (by simp [jsFalsy])
  | Json.str s, _ => coerceLevel_str s

theorem validateItem_obj (fs : List (String × Json)) (lvl : String)
    (hco : coerceLevel (getF (Json.obj fs) "fodmapLevel") = Except.ok lvl) :
    validateItem (Json.obj fs) = Except.ok
      ⟨(if jsFalsy (getF (Json.obj fs) "name") then Json.str "Unknown Item"
          else getF (Json.obj fs) "name"),
       (if jsFalsy (getF (Json.obj fs) "description") then Json.str ""
          else getF (Json.obj fs) "description"),
       lvl,
       asArray (getF (Json.obj fs) "concerns"),
       asArray (getF (Json.obj fs) "alternatives")⟩ := by
  unfold validateItem
  rw [if_neg (by simp [isNull]), hco]

theorem validateItem_safe {item : Json} (h : levelFieldSafe item = true) :
    ∃ d, validateItem item = Except.ok d ∧ levelOk d = true := by
  cases item with
  | obj fs =>
    have hmatch : (match getF (Json.obj fs) "fodmapLevel" with
        | Json.str _ => true
        | w => jsFalsy w) = true := by
      simpa [levelFieldSafe] using h
    obtain ⟨lvl, hco, hok⟩ := coerceLevel_safe _ hmatch
    refine ⟨_, validateItem_obj fs lvl hco, ?_⟩
    simpa [levelOk, validLevel] using hok
  | null => simp [levelFieldSafe] at h
  | bool b => simp [levelFieldSafe] at h
  | num lexeme => simp [levelFieldSafe] at h
  | str s => simp [levelFieldSafe] at h
  | arr xs => simp [levelFieldSafe] at h

/-- C2 counterexample: the normalizer can fail on an array of objects with a
wrong-typed field.  An object whose `fodmapLevel` is the number `1` (truthy,
but not a string) makes `item.fodmapLevel.toLowerCase()` throw a TypeError,
so `validatedResults` does not produce a sequence at all. -/
theorem c2_normalizer_counterexample :
    validatedResults (Json.arr [Json.obj [("fodmapLevel", Json.num "1")]]) =
      Except.error "item.fodmapLevel.toLowerCase is not a function" := rfl

/-- C2 amended: for arrays of objects whose `fodmapLevel` field is a string,
falsy or absent (every other field arbitrary), the normalizer never throws
and every output item's `fodmapLevel` is one of low/moderate/high/unknown
(`concerns`/`alternatives` are sequences by construction); an object with a
truthy non-string `fodmapLevel` instead makes the normalizer throw. -/
theorem c2_normalizer_safe_levels (items : List Json)
    (h : items.all levelFieldSafe = true) :
    resultsLevelsOk (validatedResults (Json.arr items)) = true := by
  have hmv : ∀ its : List Json, its.all levelFieldSafe = true →
      ∃ ds, mapValidate its = Except.ok ds ∧ ds.all levelOk = true := by
    intro its
    induction its with
    | nil => exact fun _ => ⟨[], rfl, rfl⟩
    | cons x xs ih =>
      intro hall
      rw [List.all_cons, Bool.and_eq_true] at hall
      obtain ⟨d, hd, hdok⟩ := validateItem_safe hall.1
      obtain ⟨ds, hds, hdsok⟩ := ih hall.2
      refine ⟨d :: ds, ?_, ?_⟩
      · simp [mapValidate, hd, hds]
      · simp [List.all_cons, hdok, hdsok]
  obtain ⟨ds, hds, hdsok⟩ := hmv items h
  have hval : validatedResults (Json.arr items) = Except.ok ds := by
    simpa [validatedResults, jsFalsy] using hds
  rw [hval]
  simpa [resultsLevelsOk] using hdsok

theorem c2_witness :
    resultsLevelsOk (validatedResults (Json.arr
      [Json.obj [("fodmapLevel", Json.str "HIGH")], Json.obj [],
       Json.obj [("fodmapLevel", Json.bool false)]])) = true :=
  c2_normalizer_safe_levels _ (by decide)

/-- C8 counterexample: a clearly-non-object element is not dropped.  For the
input array `["hello"]` the output sequence has one (placeholder) item, not
zero. -/
theorem c8_non_object_counterexample :
    validatedResults (Json.arr [Json.str "hello"]) = Except.ok [placeholderItem] ∧
    (Except.ok [placeholderItem] : Except String (List FodmapItemJ)) ≠
      Except.ok [] := by
  refine ⟨rfl, ?_⟩
  intro h
  injection h with h2
  exact absurd h2 (by simp)

theorem validateItem_nonObjPrim {x : Json} (h : nonObjPrim x = true) :
    validateItem x = Except.ok placeholderItem := by
  cases x with
  | str s => rfl
  | num lexeme => rfl
  | bool b => rfl
  | arr xs => rfl
  | null => simp [nonObjPrim] at h
  | obj fs => simp [nonObjPrim] at h

/-- C8 amended: clearly-non-object elements (strings, numbers, booleans,
nested arrays) are not dropped — each normalizes to the all-default
placeholder item, one output entry per input element (a `null` element
instead throws); and a malformed field in an object element does not discard
that element (here a string-valued `concerns` coerces to the empty list while
the item survives). -/
theorem c8_non_object_placeholder (items : List Json)
    (h : items.all nonObjPrim = true) :
    validatedResults (Json.arr items) =
      Except.ok (items.map (fun _ => placeholderItem)) ∧
    validateItem (Json.obj [("name", Json.str "Dish"), ("concerns", Json.str "oops")]) =
      Except.ok ⟨Json.str "Dish", Json.str "", "unknown", [], []⟩ := by
  refine ⟨?_, rfl⟩
  have hmv : ∀ its : List Json, its.all nonObjPrim = true →
      mapValidate its = Except.ok (its.map (fun _ => placeholderItem)) := by
    intro its
    induction its with
    | nil => exact fun _ => rfl
    | cons x xs ih =>
      intro hall
      rw [List.all_cons, Bool.and_eq_true] at hall
      simp [mapValidate, validateItem_nonObjPrim hall.1, ih hall.2]
  simpa [validatedResults, jsFalsy] using hmv items h

theorem c8_witness :
    validatedResults (Json.arr [Json.num "3", Json.bool true]) =
      Except.ok [placeholderItem, placeholderItem] :=
  (c8_non_object_placeholder [Json.num "3", Json.bool true] (by decide)).1

/-- C3 counterexample: a completion that is a bare JSON object is extracted
and returned by the edge function unwrapped, and the front end then calls
`.map` on it — a TypeError, caught as a pipeline failure.  The output is an
error state, not a one-element dish sequence. -/
theorem c3_bare_object_counterexample :
    extractJson "\x7b\"name\":\"X\",\"fodmapLevel\":\"low\"\x7d" =
      ExtractResult.ok (Json.obj [("name", Json.str "X"),
                                  ("fodmapLevel", Json.str "low")]) ∧
    analyzePipeline (Json.str "https://img")
        (Except.ok (some "\x7b\"name\":\"X\",\"fodmapLevel\":\"low\"\x7d")) =
      PipelineResult.failure "analysisResults.map is not a function" :=
  ⟨rfl, rfl⟩

/-- C3 amended: whenever the extracted top-level JSON value is a single
object (not an array), the pipeline fails with the `.map`-is-not-a-function
TypeError caught by the App's error handler; no single-element wrapping
happens anywhere. -/
theorem c3_bare_object_failure (imageUrl : Json) (completion : String)
    (fs : List (String × Json))
    (hurl : jsFalsy imageUrl = false)
    (hne : (completion == "") = false)
    (hext : extractJson completion = ExtractResult.ok (Json.obj fs)) :
    analyzePipeline imageUrl (Except.ok (some completion)) =
      PipelineResult.failure "analysisResults.map is not a function" := by
  have hresp : serveHandler imageUrl (Except.ok (some completion)) =
      ⟨200, Json.obj fs⟩ := by
    simp [serveHandler, hurl, optFalsy, hne, contentStr, hext]
  simp [analyzePipeline, hresp, validatedResults, jsFalsy]

theorem c3_witness :
    analyzePipeline (Json.str "https://img") (Except.ok (some "\x7b\"ok\":true\x7d")) =
      PipelineResult.failure "analysisResults.map is not a function" :=
  c3_bare_object_failure (Json.str "https://img") "\x7b\"ok\":true\x7d"
    [("ok", Json.bool true)] (by decide) (by decide) rfl
